import Mathlib

/-!
A shallow embedding of the `Vector` class of `src/Vectors/Vectors_Full.py`.

Modelling conventions:
* A Python `Vector` is identified with its tuple of coordinates, embedded as `List ℚ`;
  the `dimension` attribute is the list length.  `Decimal` coordinates (the file sets a
  working precision of 30 significant digits) are idealised as exact rationals.
* `math.sqrt` and `math.acos` are modelled as `Real.sqrt` and `Real.arccos`; every value
  that passes through them lives in `ℝ`, so the operations downstream of `normalize` are
  instantiated at `ℝ` while the purely rational operations are instantiated at `ℚ`.
* The builtin `round(x, 3)` rounds to the nearest multiple of `1/1000`, ties away
  from zero; it is modelled by `round3`.
* A raised exception is modelled as `Except.error msg` carrying the exact message string of
  the source, so that the source's string-comparison re-raising logic is embedded verbatim.
-/

namespace Vec

/-- Source line 9: the message of the exception raised by `normalize`. -/
def CANNOT_NORMALIZE_ZERO_VECTOR_MSG : String := "Cannot normalize the zero vector"

/-- Source line 10: the message of the exception raised by `parallel_projection`. -/
def NO_UNIQUE_PARALLEL_COMPONENT_MSG : String := "No unique parallel component exists!"

/-- Source line 11: the message of the exception raised by `orthogonal_projection`. -/
def NO_UNIQUE_ORTHOGONAL_COMPONENT_MSG : String := "No unique orthogonal component exists!"

/-- Source line 12: the message of the exception raised by `cross_product`. -/
def ONLY_DEFINED_IN_TWO_THREE_DIMS_MSG : String := "Cross-product only applicable to 2D or 3D vectors"

/-- The `dimension` attribute (source line 20): the length of the coordinate tuple. -/
def dimension (v : List ℚ) : Nat := v.length

/-- The shared default `tolerance=1e-10` of `is_orthogonal` (line 109) and `is_zero`
(line 129). -/
def defaultTolerance : ℚ := 1 / 10 ^ 10

/-- The builtin `round(x, 3)` applied to a numeric value: the nearest multiple of
`1/1000`, with ties rounded away from zero. -/
def round3 {α : Type} [LinearOrderedField α] [FloorRing α] (x : α) : α :=
  if x < 0 then -(((⌊-x * 1000 + 1 / 2⌋ : ℤ) : α) / 1000)
  else ((⌊x * 1000 + 1 / 2⌋ : ℤ) : α) / 1000

/-- `Vector.add` (source lines 34-38): element-wise sum over `zip` of the coordinate
tuples.  `zip` silently truncates to the shorter tuple; the source performs no dimension
check and raises nothing. -/
def add {α : Type} [Add α] (a b : List α) : List α :=
  (a.zip b).map fun p => p.1 + p.2

/-- `Vector.minus` (source lines 40-44): element-wise difference over `zip`, truncating
exactly like `add`. -/
def minus {α : Type} [Sub α] (a b : List α) : List α :=
  (a.zip b).map fun p => p.1 - p.2

/-- `Vector.scale` (source lines 46-49): multiply every coordinate by the constant `c`
(the source computes `Decimal(c) * x`). -/
def scale {α : Type} [Mul α] (c : α) (v : List α) : List α :=
  v.map fun x => c * x

/-- `Vector.dot_product` (source lines 73-83): sum of element-wise products over `zip`
(truncating like `add`), then `round(…, 3)`.  No dimension check is performed. -/
def dot_product {α : Type} [LinearOrderedField α] [FloorRing α] (a b : List α) : α :=
  round3 (((a.zip b).map fun p => p.1 * p.2).sum)

/-- The sum of squares of the coordinates, `[x ** 2 for x in self.coordinates]` summed
(source line 57-58, the argument of `sqrt` inside `magnitude`). -/
def sumSq (v : List ℚ) : ℚ :=
  (v.map fun x => x ^ 2).sum

/-- `Vector.magnitude` (source lines 51-59): `sqrt` of the sum of squares. -/
noncomputable def magnitude (v : List ℚ) : ℝ :=
  Real.sqrt ((sumSq v : ℚ) : ℝ)

/-- Coordinates of a rational vector viewed as reals (the source has one `Decimal` type
throughout; the embedding moves to `ℝ` at the point where `sqrt` first appears). -/
def toReal (v : List ℚ) : List ℝ :=
  v.map fun x => ((x : ℚ) : ℝ)

/-- `Vector.normalize` (source lines 61-71): `scale` by `1/magnitude`.  The source
detects the zero vector through the `ZeroDivisionError` of `Decimal('1.0') / magnitude`,
which fires exactly when the magnitude is `0`, i.e. when the sum of squares is `0`;
the embedding tests that (decidable) condition and the lemma `magnitude_eq_zero_iff`
relates it back to `magnitude`. -/
noncomputable def normalize (v : List ℚ) : Except String (List ℝ) :=
  if sumSq v = 0 then Except.error CANNOT_NORMALIZE_ZERO_VECTOR_MSG
  else Except.ok (scale (1 / magnitude v) (toReal v))

/-- The `try/except` re-labelling pattern shared by `get_degree`,
`parallel_projection` and `orthogonal_projection`: on an exception `e`, if `str(e)`
equals `CANNOT_NORMALIZE_ZERO_VECTOR_MSG` re-raise with message `msg`, otherwise
re-raise `e` unchanged. -/
def relabelZero {β : Type} (msg : String) : Except String β → Except String β
  | Except.error e =>
      if e = CANNOT_NORMALIZE_ZERO_VECTOR_MSG then Except.error msg else Except.error e
  | Except.ok r => Except.ok r

/-- `Vector.get_degree` (source lines 85-107) with the default `in_degrees=False`:
`acos` of the rounded dot product of the two normalized vectors; a zero-vector failure of
either `normalize` is re-labelled "Cannot compute an angle with a zero vector". -/
noncomputable def get_degree (a b : List ℚ) : Except String ℝ :=
  relabelZero "Cannot compute an angle with a zero vector"
    (do
      let nx ← normalize a
      let ny ← normalize b
      return Real.arccos (dot_product nx ny))

/-- `Vector.is_orthogonal` (source lines 109-115) at the default tolerance:
`abs(self.dot_product(v)) < tolerance`. -/
def is_orthogonal (a b : List ℚ) : Bool :=
  decide (|dot_product a b| < defaultTolerance)

/-- `Vector.is_zero` (source lines 129-131) at the default tolerance:
`self.magnitude() < tolerance`. -/
def is_zero (v : List ℚ) : Prop :=
  magnitude v < ((defaultTolerance : ℚ) : ℝ)

/-- `Vector.is_parallel` (source lines 117-127): either vector is (tolerance-)zero, or
the computed angle is exactly `0` or exactly `pi`.  In the source the `or` chain
short-circuits, so `get_degree` is only reached when neither vector is zero, in which
case it cannot raise; equating with `Except.ok` reflects that. -/
def is_parallel (a b : List ℚ) : Prop :=
  is_zero a ∨ is_zero b ∨ get_degree a b = Except.ok 0 ∨ get_degree a b = Except.ok Real.pi

/-- `Vector.parallel_projection` (source lines 147-164): scale the unit basis vector by
the (rounded) dot product of `v` with it; a zero-vector failure of `normalize` is
re-labelled `NO_UNIQUE_PARALLEL_COMPONENT_MSG`. -/
noncomputable def parallel_projection (v basis : List ℚ) : Except String (List ℝ) :=
  relabelZero NO_UNIQUE_PARALLEL_COMPONENT_MSG
    ((normalize basis).map fun u => scale (dot_product (toReal v) u) u)

/-- `Vector.orthogonal_projection` (source lines 166-180): `v` minus the parallel
projection.  The handler re-labels only an exception whose message is
`CANNOT_NORMALIZE_ZERO_VECTOR_MSG`; but `parallel_projection` has already re-labelled
that message, so the handler never fires and the parallel-component error propagates. -/
noncomputable def orthogonal_projection (v basis : List ℚ) : Except String (List ℝ) :=
  relabelZero NO_UNIQUE_ORTHOGONAL_COMPONENT_MSG
    ((parallel_projection v basis).map fun p => minus (toReal v) p)

/-- The direct three-coordinate path of `Vector.cross_product` (source lines 198-204):
unpack both coordinate tuples into exactly three names and apply the 3D formula; any
other shape raises `ValueError` (modelled as `none`). -/
def crossCore (a b : List ℚ) : Option (List ℚ) :=
  match a, b with
  | [x1, y1, z1], [x2, y2, z2] =>
      some [y1 * z2 - y2 * z1, -(x1 * z2 - x2 * z1), x1 * y2 - x2 * y1]
  | _, _ => none

/-- `Vector.cross_product` (source lines 188-216).  The `except ValueError` handler
dispatches on the message: `"need more than 2 values to unpack"` occurs exactly when
`self` has 2 coordinates (first unpack) or `self` has 3 and `v` has 2 (second unpack);
that branch builds `self_in_3D` and `v_in_3D` BOTH from `self.coordinates + ('0',)`
(the source uses `self` twice) and recurses, which is `crossCore` on the promoted lists
(the recursive call either takes the direct path or raises).  Every other `ValueError`
reaches the `elif`, whose condition `msg == 'too many values to unpack' or 'need more
than 1 value to unpack'` is always true (a non-empty string literal), so it raises
`ONLY_DEFINED_IN_TWO_THREE_DIMS_MSG` (modelled as `none`). -/
def cross_product (a b : List ℚ) : Option (List ℚ) :=
  match crossCore a b with
  | some r => some r
  | none =>
      if a.length = 2 ∨ (a.length = 3 ∧ b.length = 2) then
        crossCore (a ++ [0]) (a ++ [0])
      else
        none

/-! Helper lemmas about the embedded operations. -/

lemma add_cons {α : Type} [Add α] (x y : α) (xs ys : List α) :
    add (x :: xs) (y :: ys) = (x + y) :: add xs ys := rfl

lemma minus_cons {α : Type} [Sub α] (x y : α) (xs ys : List α) :
    minus (x :: xs) (y :: ys) = (x - y) :: minus xs ys := rfl

lemma add_length {α : Type} [Add α] (a b : List α) :
    (add a b).length = min a.length b.length := by
  simp [add, List.length_zip]

lemma minus_length {α : Type} [Sub α] (a b : List α) :
    (minus a b).length = min a.length b.length := by
  simp [minus, List.length_zip]

lemma scale_length {α : Type} [Mul α] (c : α) (v : List α) :
    (scale c v).length = v.length := by
  simp [scale]

lemma toReal_length (v : List ℚ) : (toReal v).length = v.length := by
  simp [toReal]

lemma sumSq_nonneg (v : List ℚ) : 0 ≤ sumSq v := by
  induction v with
  | nil => simp [sumSq]
  | cons x xs ih =>
      have hx : (0 : ℚ) ≤ x ^ 2 := sq_nonneg x
      have : sumSq (x :: xs) = x ^ 2 + sumSq xs := by simp [sumSq]
      rw [this]
      exact add_nonneg hx ih

lemma magnitude_eq_zero_iff (v : List ℚ) : magnitude v = 0 ↔ sumSq v = 0 := by
  unfold magnitude
  rw [Real.sqrt_eq_zero (by exact_mod_cast sumSq_nonneg v)]
  exact_mod_cast Iff.rfl

lemma round3_eq_int_div (x : ℚ) : ∃ k : ℤ, round3 x = (k : ℚ) / 1000 := by
  unfold round3
  split
  · exact ⟨-⌊-x * 1000 + 1 / 2⌋, by push_cast; ring⟩
  · exact ⟨⌊x * 1000 + 1 / 2⌋, rfl⟩

lemma floor_half_near (y : ℚ) : |((⌊y * 1000 + 1 / 2⌋ : ℤ) : ℚ) / 1000 - y| ≤ 1 / 2000 := by
  have h1 : ((⌊y * 1000 + 1 / 2⌋ : ℤ) : ℚ) ≤ y * 1000 + 1 / 2 := Int.floor_le _
  have h2 : y * 1000 + 1 / 2 < ((⌊y * 1000 + 1 / 2⌋ : ℤ) : ℚ) + 1 := Int.lt_floor_add_one _
  rw [abs_le]
  constructor <;> [linarith; linarith]

lemma round3_near (x : ℚ) : |round3 x - x| ≤ 1 / 2000 := by
  unfold round3
  split
  · have h := floor_half_near (-x)
    have heq : -(((⌊-x * 1000 + 1 / 2⌋ : ℤ) : ℚ) / 1000) - x =
        -(((⌊-x * 1000 + 1 / 2⌋ : ℤ) : ℚ) / 1000 - -x) := by ring
    rw [heq, abs_neg]
    exact h
  · exact floor_half_near x

lemma add_minus_cancel (p w : List ℝ) (h : p.length = w.length) :
    add p (minus w p) = w := by
  induction p generalizing w with
  | nil =>
      cases w with
      | nil => rfl
      | cons y ys => simp at h
  | cons x xs ih =>
      cases w with
      | nil => simp at h
      | cons y ys =>
          have h' : xs.length = ys.length := by simpa using h
          rw [minus_cons, add_cons, ih ys h']
          have hx : x + (y - x) = y := by ring
          rw [hx]

lemma zip_mul_sum (a b : List ℚ) :
    (((a.zip b).map fun p => p.1 * p.2).sum) =
      ∑ i ∈ Finset.range (min a.length b.length), a.getD i 0 * b.getD i 0 := by
  induction a generalizing b with
  | nil => simp
  | cons x xs ih =>
      cases b with
      | nil => simp
      | cons y ys =>
          simp only [List.zip_cons_cons, List.map_cons, List.sum_cons, List.length_cons]
          rw [ih ys, Nat.succ_min_succ, Finset.sum_range_succ']
          simp only [List.getD_cons_succ, List.getD_cons_zero]
          ring

lemma zip_take_min {α : Type} (a b : List α) :
    a.zip b = (a.take (min a.length b.length)).zip (b.take (min a.length b.length)) := by
  induction a generalizing b with
  | nil => simp
  | cons x xs ih =>
      cases b with
      | nil => simp
      | cons y ys =>
          simp only [List.length_cons, Nat.succ_min_succ, List.take_succ_cons,
            List.zip_cons_cons]
          rw [← ih ys]

lemma add_getD (a b : List ℚ) (i : Nat) (hi : i < min a.length b.length) :
    (add a b).getD i 0 = a.getD i 0 + b.getD i 0 := by
  induction a generalizing b i with
  | nil => simp at hi
  | cons x xs ih =>
      cases b with
      | nil => simp at hi
      | cons y ys =>
          cases i with
          | zero => simp [add_cons]
          | succ j =>
              have hj : j < min xs.length ys.length := by
                simp only [List.length_cons, Nat.succ_min_succ] at hi
                omega
              simp only [add_cons, List.getD_cons_succ]
              exact ih ys j hj

lemma minus_getD (a b : List ℚ) (i : Nat) (hi : i < min a.length b.length) :
    (minus a b).getD i 0 = a.getD i 0 - b.getD i 0 := by
  induction a generalizing b i with
  | nil => simp at hi
  | cons x xs ih =>
      cases b with
      | nil => simp at hi
      | cons y ys =>
          cases i with
          | zero => simp [minus_cons]
          | succ j =>
              have hj : j < min xs.length ys.length := by
                simp only [List.length_cons, Nat.succ_min_succ] at hi
                omega
              simp only [minus_cons, List.getD_cons_succ]
              exact ih ys j hj

/-! Claim theorems. -/

/-- C1 (counterexample): the claim says `add`, `minus` and `dot_product` fail with a
`DimensionMismatch` error on vectors of unequal dimension; but the source performs no
dimension check at all — at the mismatched input `a = (1, 2, 3)`, `b = (10, 20)` all
three operations return ordinary results. -/
theorem c1_counterexample_mismatch_returns_results :
    add [1, 2, 3] [10, 20] = ([11, 22] : List ℚ) ∧
    minus [1, 2, 3] [10, 20] = ([-9, -18] : List ℚ) ∧
    dot_product [1, 2, 3] [10, 20] = (50 : ℚ) := by
  refine ⟨?_, ?_, ?_⟩
  · norm_num [add]
  · norm_num [minus]
  · norm_num [dot_product, round3]

/-- C1 (amended): for vectors of unequal dimension, `add`, `minus` and `dot_product` do
not fail; each computes over only the first `min(a.dimension, b.dimension)` coordinate
pairs, i.e. it agrees with the same operation applied to the truncated vectors. -/
theorem c1_amended_truncation (a b : List ℚ) (_h : dimension a ≠ dimension b) :
    add a b =
      add (a.take (min (dimension a) (dimension b))) (b.take (min (dimension a) (dimension b))) ∧
    minus a b =
      minus (a.take (min (dimension a) (dimension b))) (b.take (min (dimension a) (dimension b))) ∧
    dot_product a b =
      dot_product (a.take (min (dimension a) (dimension b)))
        (b.take (min (dimension a) (dimension b))) := by
  unfold dimension
  refine ⟨?_, ?_, ?_⟩
  · simp only [add]
    rw [← zip_take_min]
  · simp only [minus]
    rw [← zip_take_min]
  · simp only [dot_product]
    rw [← zip_take_min]

/-- Witness for C1 (amended) at the concrete mismatched pair `(1, 2, 3)`, `(10, 20)`. -/
theorem c1_amended_truncation_witness :
    add [1, 2, 3] [10, 20] =
      add (([1, 2, 3] : List ℚ).take (min (dimension [1, 2, 3]) (dimension [10, 20])))
        (([10, 20] : List ℚ).take (min (dimension [1, 2, 3]) (dimension [10, 20]))) ∧
    minus [1, 2, 3] [10, 20] =
      minus (([1, 2, 3] : List ℚ).take (min (dimension [1, 2, 3]) (dimension [10, 20])))
        (([10, 20] : List ℚ).take (min (dimension [1, 2, 3]) (dimension [10, 20]))) ∧
    dot_product [1, 2, 3] [10, 20] =
      dot_product (([1, 2, 3] : List ℚ).take (min (dimension [1, 2, 3]) (dimension [10, 20])))
        (([10, 20] : List ℚ).take (min (dimension [1, 2, 3]) (dimension [10, 20]))) :=
  c1_amended_truncation [1, 2, 3] [10, 20] (by decide)

/-- C2: the claim says the 2D cross product has third component `a.x*b.y - b.x*a.y`;
but the promotion branch of the source builds both 3D operands from `self.coordinates`,
so every 2D cross product is the cross product of `a` with itself — the zero vector.
At `a = (1, 0)`, `b = (0, 1)` the claimed value has third component `1*1 - 0*0 = 1`,
while the code returns `(0, 0, 0)`. -/
theorem c2_cross_product_2d_bug :
    cross_product [1, 0] [0, 1] = some [0, 0, 0] ∧
    cross_product [1, 0] [0, 1] ≠ some [0, 0, 1 * 1 - 0 * 0] := by
  constructor
  · norm_num [cross_product, crossCore]
  · norm_num [cross_product, crossCore]

/-- C3: the claim says `orthogonal_projection` against a zero basis fails with the
orthogonal-component error; but `parallel_projection` has already re-labelled the
zero-vector message, so the handler in `orthogonal_projection` (which matches only
`CANNOT_NORMALIZE_ZERO_VECTOR_MSG`) never fires, and the parallel-component error is
what propagates.  Evaluated at `v = (1, 1)`, `basis = (0, 0)`. -/
theorem c3_orthogonal_projection_zero_basis_bug :
    orthogonal_projection [1, 1] [0, 0] = Except.error NO_UNIQUE_PARALLEL_COMPONENT_MSG ∧
    orthogonal_projection [1, 1] [0, 0] ≠ Except.error NO_UNIQUE_ORTHOGONAL_COMPONENT_MSG := by
  have hz : sumSq ([0, 0] : List ℚ) = 0 := by norm_num [sumSq]
  have hne : NO_UNIQUE_PARALLEL_COMPONENT_MSG ≠ CANNOT_NORMALIZE_ZERO_VECTOR_MSG := by decide
  have h1 : orthogonal_projection [1, 1] [0, 0] =
      Except.error NO_UNIQUE_PARALLEL_COMPONENT_MSG := by
    simp [orthogonal_projection, parallel_projection, normalize, hz, relabelZero,
      Except.map, hne]
  refine ⟨h1, ?_⟩
  rw [h1]
  simp only [ne_eq, Except.error.injEq]
  decide

/-- C4: the claim says any dimension combination other than both-2D or both-3D fails
with `UnsupportedDimension`; but when `self` is 2-dimensional the promotion branch runs
regardless of `v` (and uses `self` twice), so no error is raised: at the mismatched
input `a = (1, 2)`, `b = (1, 2, 3)` the code returns the vector `(0, 0, 0)`. -/
theorem c4_cross_product_mismatch_bug :
    cross_product [1, 2] [1, 2, 3] = some [0, 0, 0] ∧
    cross_product [1, 2] [1, 2, 3] ≠ none := by
  constructor
  · norm_num [cross_product, crossCore]
  · norm_num [cross_product, crossCore]
    exact fun hcontra => Option.noConfusion hcontra

/-- C5: for equal-dimension vectors, `dot_product` returns the sum of the element-wise
products of the coordinates rounded to 3 decimal places — it equals the rounding of the
index-wise sum, it is an integer multiple of `1/1000` within `1/2000` of the exact sum —
and it is symmetric. -/
theorem c5_dot_product_rounded_symmetric (a b : List ℚ) (h : dimension a = dimension b) :
    dot_product a b = round3 (∑ i ∈ Finset.range (dimension a), a.getD i 0 * b.getD i 0) ∧
    (∃ k : ℤ, dot_product a b = (k : ℚ) / 1000) ∧
    |dot_product a b - ∑ i ∈ Finset.range (dimension a), a.getD i 0 * b.getD i 0| ≤ 1 / 2000 ∧
    dot_product a b = dot_product b a := by
  unfold dimension at h ⊢
  have hmin : min a.length b.length = a.length := by omega
  have hsum : ((a.zip b).map fun p => p.1 * p.2).sum =
      ∑ i ∈ Finset.range a.length, a.getD i 0 * b.getD i 0 := by
    rw [zip_mul_sum, hmin]
  refine ⟨?_, ?_, ?_, ?_⟩
  · unfold dot_product
    rw [hsum]
  · unfold dot_product
    exact round3_eq_int_div _
  · unfold dot_product
    rw [hsum]
    exact round3_near _
  · unfold dot_product
    rw [zip_mul_sum, zip_mul_sum, Nat.min_comm]
    congr 1
    exact Finset.sum_congr rfl fun i _ => mul_comm _ _

/-- Witness for C5 at `a = (1, 2)`, `b = (3, 4)`. -/
theorem c5_dot_product_witness :
    dot_product [1, 2] [3, 4] =
      round3 (∑ i ∈ Finset.range (dimension ([1, 2] : List ℚ)),
        ([1, 2] : List ℚ).getD i 0 * ([3, 4] : List ℚ).getD i 0) ∧
    (∃ k : ℤ, dot_product ([1, 2] : List ℚ) [3, 4] = (k : ℚ) / 1000) ∧
    |dot_product ([1, 2] : List ℚ) [3, 4] -
      ∑ i ∈ Finset.range (dimension ([1, 2] : List ℚ)),
        ([1, 2] : List ℚ).getD i 0 * ([3, 4] : List ℚ).getD i 0| ≤ 1 / 2000 ∧
    dot_product ([1, 2] : List ℚ) [3, 4] = dot_product [3, 4] [1, 2] :=
  c5_dot_product_rounded_symmetric [1, 2] [3, 4] rfl

/-- C9: for vectors of unequal dimension, `add`, `minus` and `dot_product` raise
nothing (they are total): `add` and `minus` return a vector of dimension
`min(a.dimension, b.dimension)` whose entries are the element-wise sums/differences of
the surviving pairs, and `dot_product` returns the rounded sum over that truncated
pairing. -/
theorem c9_truncation_semantics (a b : List ℚ) (_h : dimension a ≠ dimension b) :
    dimension (add a b) = min (dimension a) (dimension b) ∧
    dimension (minus a b) = min (dimension a) (dimension b) ∧
    (∀ i, i < min (dimension a) (dimension b) →
      (add a b).getD i 0 = a.getD i 0 + b.getD i 0 ∧
      (minus a b).getD i 0 = a.getD i 0 - b.getD i 0) ∧
    dot_product a b =
      round3 (∑ i ∈ Finset.range (min (dimension a) (dimension b)),
        a.getD i 0 * b.getD i 0) := by
  unfold dimension
  refine ⟨add_length a b, minus_length a b, ?_, ?_⟩
  · intro i hi
    exact ⟨add_getD a b i hi, minus_getD a b i hi⟩
  · unfold dot_product
    rw [zip_mul_sum]

/-- Witness for C9 at the concrete mismatched pair `(1, 2, 3)`, `(10, 20)`. -/
theorem c9_truncation_witness :
    dimension (add [1, 2, 3] [10, 20]) =
      min (dimension ([1, 2, 3] : List ℚ)) (dimension ([10, 20] : List ℚ)) ∧
    dimension (minus [1, 2, 3] [10, 20]) =
      min (dimension ([1, 2, 3] : List ℚ)) (dimension ([10, 20] : List ℚ)) ∧
    (∀ i, i < min (dimension ([1, 2, 3] : List ℚ)) (dimension ([10, 20] : List ℚ)) →
      (add [1, 2, 3] [10, 20]).getD i 0 =
        ([1, 2, 3] : List ℚ).getD i 0 + ([10, 20] : List ℚ).getD i 0 ∧
      (minus [1, 2, 3] [10, 20]).getD i 0 =
        ([1, 2, 3] : List ℚ).getD i 0 - ([10, 20] : List ℚ).getD i 0) ∧
    dot_product ([1, 2, 3] : List ℚ) [10, 20] =
      round3 (∑ i ∈ Finset.range
          (min (dimension ([1, 2, 3] : List ℚ)) (dimension ([10, 20] : List ℚ))),
        ([1, 2, 3] : List ℚ).getD i 0 * ([10, 20] : List ℚ).getD i 0) :=
  c9_truncation_semantics [1, 2, 3] [10, 20] (by decide)

/-- C10: at the default tolerance `1e-10`, `is_orthogonal` is true exactly when the
rounded dot product is exactly `0`: the dot product is an integer multiple of `1/1000`,
whose smallest nonzero magnitude `1/1000` is far above the tolerance. -/
theorem c10_is_orthogonal_iff_dot_zero (a b : List ℚ) (_h : dimension a = dimension b) :
    is_orthogonal a b = true ↔ dot_product a b = 0 := by
  obtain ⟨k, hk⟩ := round3_eq_int_div (((a.zip b).map fun p => p.1 * p.2).sum)
  have hdot : dot_product a b = (k : ℚ) / 1000 := hk
  unfold is_orthogonal
  rw [decide_eq_true_iff, hdot]
  unfold defaultTolerance
  constructor
  · intro hlt
    have hk0 : k = 0 := by
      by_contra hne
      have h1 : (1 : ℚ) ≤ |(k : ℚ)| := by exact_mod_cast Int.one_le_abs hne
      rw [abs_div] at hlt
      have h2 : |(1000 : ℚ)| = 1000 := by norm_num
      rw [h2, div_lt_iff₀ (by norm_num : (0 : ℚ) < 1000)] at hlt
      norm_num at hlt
      linarith
    rw [hk0]
    norm_num
  · intro h0
    rw [h0]
    norm_num

/-- Witness for C10 at `a = (1, 0)`, `b = (0, 1)`. -/
theorem c10_is_orthogonal_witness :
    is_orthogonal [1, 0] [0, 1] = true ↔ dot_product ([1, 0] : List ℚ) [0, 1] = 0 :=
  c10_is_orthogonal_iff_dot_zero [1, 0] [0, 1] rfl

/-- C6: `normalize` fails with the zero-vector error exactly when the magnitude is `0`
(the source detects this as the division-by-zero of `1/magnitude`), and for nonzero
magnitude it succeeds and returns `scale(v, 1/magnitude(v))`. -/
theorem c6_normalize_zero_vector (v : List ℚ) :
    (magnitude v = 0 → normalize v = Except.error CANNOT_NORMALIZE_ZERO_VECTOR_MSG) ∧
    (magnitude v ≠ 0 → normalize v = Except.ok (scale (1 / magnitude v) (toReal v))) := by
  constructor
  · intro h0
    have hs : sumSq v = 0 := (magnitude_eq_zero_iff v).mp h0
    simp [normalize, hs]
  · intro hne
    have hs : sumSq v ≠ 0 := fun hh => hne ((magnitude_eq_zero_iff v).mpr hh)
    simp [normalize, hs]

/-- Witness for C6 at the zero vector `(0, 0)` and the nonzero vector `(3, 4)`. -/
theorem c6_normalize_witness :
    normalize ([0, 0] : List ℚ) = Except.error CANNOT_NORMALIZE_ZERO_VECTOR_MSG ∧
    normalize ([3, 4] : List ℚ) =
      Except.ok (scale (1 / magnitude [3, 4]) (toReal [3, 4])) := by
  constructor
  · exact (c6_normalize_zero_vector [0, 0]).1
      ((magnitude_eq_zero_iff [0, 0]).mpr (by norm_num [sumSq]))
  · refine (c6_normalize_zero_vector [3, 4]).2 fun h => ?_
    have hs := (magnitude_eq_zero_iff [3, 4]).mp h
    norm_num [sumSq] at hs

/-- C7: for a basis of nonzero magnitude and matching dimension, both projections
succeed and the parallel and orthogonal components add back to `v` — here even exactly,
since `orthogonal_projection` returns `v - parallel_projection` and the element-wise
sum cancels, whatever rounding happened inside the parallel component. -/
theorem c7_projection_round_trip (v basis : List ℚ) (hd : dimension v = dimension basis)
    (hb : magnitude basis ≠ 0) :
    ∃ p o, parallel_projection v basis = Except.ok p ∧
      orthogonal_projection v basis = Except.ok o ∧
      add p o = toReal v := by
  have hs : sumSq basis ≠ 0 := fun hh => hb ((magnitude_eq_zero_iff basis).mpr hh)
  have hnorm : normalize basis =
      Except.ok (scale (1 / magnitude basis) (toReal basis)) := by
    simp [normalize, hs]
  set u : List ℝ := scale (1 / magnitude basis) (toReal basis) with hu
  set p : List ℝ := scale (dot_product (toReal v) u) u with hp
  have hpar : parallel_projection v basis = Except.ok p := by
    simp [parallel_projection, hnorm, relabelZero, Except.map]
  have horth : orthogonal_projection v basis = Except.ok (minus (toReal v) p) := by
    simp [orthogonal_projection, hpar, relabelZero, Except.map]
  refine ⟨p, minus (toReal v) p, hpar, horth, ?_⟩
  apply add_minus_cancel
  have h1 : p.length = basis.length := by
    rw [hp, scale_length, hu, scale_length, toReal_length]
  rw [h1, toReal_length]
  unfold dimension at hd
  omega

/-- Witness for C7 at `v = (1, 2)`, `basis = (1, 0)`. -/
theorem c7_projection_witness :
    magnitude ([1, 0] : List ℚ) ≠ 0 ∧
    ∃ p o, parallel_projection [1, 2] [1, 0] = Except.ok p ∧
      orthogonal_projection [1, 2] [1, 0] = Except.ok o ∧
      add p o = toReal [1, 2] := by
  have hb : magnitude ([1, 0] : List ℚ) ≠ 0 := fun h => by
    have hs := (magnitude_eq_zero_iff [1, 0]).mp h
    norm_num [sumSq] at hs
  exact ⟨hb, c7_projection_round_trip [1, 2] [1, 0] rfl hb⟩

/-- C8: `is_parallel` is true exactly when one of the vectors is (tolerance-)zero or
the computed angle is exactly `0` or exactly the constant `pi` — an exact equality on
the computed angle, not a tolerance comparison. -/
theorem c8_is_parallel_exact_angle (a b : List ℚ) (_h : dimension a = dimension b) :
    is_parallel a b ↔
      is_zero a ∨ is_zero b ∨
        ∃ θ : ℝ, get_degree a b = Except.ok θ ∧ (θ = 0 ∨ θ = Real.pi) := by
  unfold is_parallel
  constructor
  · rintro (h1 | h2 | h3 | h4)
    · exact Or.inl h1
    · exact Or.inr (Or.inl h2)
    · exact Or.inr (Or.inr ⟨0, h3, Or.inl rfl⟩)
    · exact Or.inr (Or.inr ⟨Real.pi, h4, Or.inr rfl⟩)
  · rintro (h1 | h2 | ⟨θ, hθ, hcase⟩)
    · exact Or.inl h1
    · exact Or.inr (Or.inl h2)
    · rcases hcase with rfl | rfl
      · exact Or.inr (Or.inr (Or.inl hθ))
      · exact Or.inr (Or.inr (Or.inr hθ))

/-- Witness for C8 at `a = (1, 0)`, `b = (0, 1)`. -/
theorem c8_is_parallel_witness :
    is_parallel [1, 0] [0, 1] ↔
      is_zero [1, 0] ∨ is_zero [0, 1] ∨
        ∃ θ : ℝ, get_degree [1, 0] [0, 1] = Except.ok θ ∧ (θ = 0 ∨ θ = Real.pi) :=
  c8_is_parallel_exact_angle [1, 0] [0, 1] rfl

end Vec
